import Mathlib

/-!
Shallow embedding of the giveaway core of `eris-giveaways`
(src/lib/Giveaway.ts, src/lib/Constants.ts and the manager file), together
with theorems settling the specification claims.

JavaScript numbers that matter here are epoch-millisecond timestamps and
durations; the code only ever combines them by `+`/`-` and compares them,
and uses the sentinel `Infinity` (for `endAt` while paused) and `null`
(for unset pause fields, and the default `forceUpdateEvery`).  We model
such a value as `JSNum` with integer, `Infinity` and `null` cases;
`Number.isFinite` is true exactly on the integer case, `null` coerces to
`0` in arithmetic and comparisons, exactly as in JavaScript.
-/

/-- A JavaScript number slot as used by the giveaway code: a finite
(integer) value, `Infinity`, or `null`/`undefined`. -/
inductive JSNum where
  | nullv : JSNum
  | fin : Int → JSNum
  | inf : JSNum
deriving DecidableEq, Repr

/-- JavaScript `Number.isFinite(x)`. -/
def JSNum.isFinite : JSNum → Bool
  | .fin _ => true
  | _ => false

/-- Numeric coercion for comparison/arithmetic: `null` coerces to `0`,
`Infinity` stays infinite (`none`). -/
def JSNum.toOrd : JSNum → Option Int
  | .nullv => some 0
  | .fin n => some n
  | .inf => none

/-- JavaScript `a + b` on two number slots (`null` coerces to 0,
anything involving `Infinity` is `Infinity`). -/
def JSNum.add : JSNum → JSNum → JSNum
  | a, b =>
    match a.toOrd, b.toOrd with
    | some x, some y => .fin (x + y)
    | _, _ => .inf

/-- JavaScript `a + n` for a plain finite number `n`. -/
def JSNum.addF (a : JSNum) (n : Int) : JSNum := a.add (.fin n)

/-- JavaScript `a - now` for a finite timestamp `now`
(this is `remainingTime = this.endAt - Date.now()`). -/
def JSNum.subF (a : JSNum) (n : Int) : JSNum := a.add (.fin (-n))

/-- JavaScript `a > b`. -/
def jsGt (a b : JSNum) : Bool :=
  match a.toOrd, b.toOrd with
  | some x, some y => decide (x > y)
  | none, some _ => true
  | some _, none => false
  | none, none => false

/-- JavaScript `a < b`. -/
def jsLt (a b : JSNum) : Bool := jsGt b a

/-- JavaScript `a <= b`. -/
def jsLe (a b : JSNum) : Bool := !jsGt a b

/-- Truthiness of the JavaScript expression `b || n` (for a boolean `b`
and a number literal `n`) when used as an `if` condition: `b`, or else
the truthiness of the number. -/
def jsOrNumTruthy (b : Bool) (n : Int) : Bool := b || decide (n ≠ 0)

/-!
## Bonus entry rules (`Giveaway.checkBonusEntries`)

A `BonusEntry` of the source is an object with a `bonus` function and an
optional `cumulative` flag.  We embed one rule as: whether `obj.bonus` is
a function (`typeof obj.bonus === "function"`), the serialized source
text of the function (`serialize(obj.bonus)`, used only in error
messages), the outcome of evaluating it on the participant (either a
returned value — `some n` when the value is an integer `n`, `none` for
any non-integer value — or a thrown error), and the `cumulative` flag.
-/

/-- Outcome of evaluating a bonus rule's `bonus` function (or the exempt
predicate) on one participant. -/
inductive BonusEval where
  | value : Option Int → BonusEval
  | thrown : String → BonusEval
deriving DecidableEq, Repr

/-- One element of `Giveaway.bonusEntries`. -/
structure BonusEntry where
  isFunction : Bool
  src : String
  outcome : BonusEval
  cumulative : Bool
deriving DecidableEq, Repr

/-- The error message built in the `catch` block of
`checkBonusEntries` (template
`Giveaway Message ID: (id) \n (serialized fn) \n (err)`). -/
def bonusErrorMsg (messageID src err : String) : String :=
  "Giveaway Message ID: " ++ messageID ++ " \n " ++ src ++ " \n " ++ err

/-- The `for (const obj of this.bonusEntries)` loop of
`checkBonusEntries`: accumulates `entries` and `cumulativeEntries`
(pushed at the back, as `Array.push` does); a thrown evaluation is
re-thrown as a new `Error` carrying the message ID. -/
def bonusLoop (messageID : String) :
    List BonusEntry → List Int → List Int → Except String (List Int × List Int)
  | [], entries, cums => .ok (entries, cums)
  | r :: rest, entries, cums =>
    if r.isFunction then
      match r.outcome with
      | .thrown err => .error (bonusErrorMsg messageID r.src err)
      | .value (some n) =>
        if 0 < n then
          if r.cumulative then bonusLoop messageID rest entries (cums ++ [n])
          else bonusLoop messageID rest (entries ++ [n]) cums
        else bonusLoop messageID rest entries cums
      | .value none => bonusLoop messageID rest entries cums
    else bonusLoop messageID rest entries cums

/-- JavaScript `Math.max(...entries)`; in `checkBonusEntries` the list always
contains the initial `0`, so the empty case is unreachable. -/
def jsListMax : List Int → Int
  | [] => 0
  | x :: xs => xs.foldl max x

/-- JavaScript `cumulativeEntries.reduce((a, b) => a + b)` (list is nonempty when
called; summation from 0 gives the same value). -/
def sumList (l : List Int) : Int := l.foldl (fun a b => a + b) 0

/-- Embeds `Giveaway.checkBonusEntries(user)`.  `memberFound` is whether the
member lookup (cache or `fetchMembers`) produced the member; when it did
not, the method returns `0` before looking at any rule.  A rule whose
evaluation throws makes the whole call throw (the source's `catch` block
wraps the error and re-throws it). -/
def checkBonusEntries (messageID : String) (memberFound : Bool)
    (rules : List BonusEntry) : Except String Int :=
  if !memberFound then .ok 0
  else
    match bonusLoop messageID rules [0] [] with
    | .error e => .error e
    | .ok (entries, cums) =>
      let entries := if cums ≠ [] then entries ++ [sumList cums] else entries
      .ok (jsListMax entries)

/-- The positive integer results of the non-cumulative rules, in order. -/
def posNonCum (rules : List BonusEntry) : List Int :=
  rules.filterMap fun r =>
    match r.isFunction, r.outcome, r.cumulative with
    | true, .value (some n), false => if 0 < n then some n else none
    | _, _, _ => none

/-- The positive integer results of the cumulative rules, in order. -/
def posCum (rules : List BonusEntry) : List Int :=
  rules.filterMap fun r =>
    match r.isFunction, r.outcome, r.cumulative with
    | true, .value (some n), true => if 0 < n then some n else none
    | _, _, _ => none

/-- The spec's claimed total ("max(non-cumulative results) + sum(cumulative
results)", each negative or non-integer contribution clamped to 0):
written from the spec's words, for comparison against the source. -/
def claimedBonusTotal (rules : List BonusEntry) : Int :=
  jsListMax (0 :: posNonCum rules) + sumList (posCum rules)

/-- What the source actually computes: the cumulative sum is one more
candidate competing in the maximum, not an added term. -/
def amendedBonusTotal (rules : List BonusEntry) : Int :=
  max (jsListMax (0 :: posNonCum rules)) (sumList (posCum rules))

/-!
## Exempt-member predicate (`Giveaway.exemptMembers`)

The method first tries the per-giveaway predicate
(`this.exemptMembersFunction`); if that throws, the `catch` block
constructs an `Error` mentioning the message ID (the object is discarded
— never thrown or logged) and returns `false`.  Otherwise it falls back
to the manager's default predicate, whose evaluation is *not* wrapped in
`try`/`catch`, so a throw there propagates to the caller.
-/

/-- Outcome of evaluating an exempt predicate on one member. -/
inductive ExemptEval where
  | value : Bool → ExemptEval
  | thrown : String → ExemptEval
deriving DecidableEq, Repr

/-- Embeds `Giveaway.exemptMembers(member)`.  `hasCustomFn` is whether
`this.exemptMembersFunction` is a function; `hasDefaultFn` whether the
manager default `options.default.exemptMembers` is. -/
def Giveaway.exemptMembers (hasCustomFn : Bool) (custom : ExemptEval)
    (hasDefaultFn : Bool) (defaultEval : ExemptEval) : Except String Bool :=
  if hasCustomFn then
    match custom with
    | .value b => .ok b
    | .thrown _ => .ok false
  else if hasDefaultFn then
    match defaultEval with
    | .value b => .ok b
    | .thrown e => .error e
  else .ok false

/-!
## Giveaway state

The mutable fields of one `Giveaway` entity that the claims touch.
Presentation blobs (`messages`, `extraData`, merged last-chance options)
are opaque to every claim; they are carried as plain values so that
"state unchanged" is expressible, and `deepmerge` of two such blobs is
represented by the merged value that the edit supplies.
`messageFound` is whether `this.message` is cached or fetchable
(`this.message ??= await this.fetchMessage()` succeeds); `endTimeout` is
whether the `this.endTimeout` field holds a handle (note the source
calls `clearTimeout(this.endTimeout)` without clearing the field).
-/

structure GState where
  messageID : String
  channelID : String
  guildID : String
  startAt : Int
  endAt : JSNum
  ended : Bool
  winnerIDs : List String
  winnerCount : Int
  prize : String
  messages : String
  thumbnail : Option String
  image : Option String
  extraData : Option String
  isDrop : Bool
  bonusEntries : List BonusEntry
  exemptMembersSet : Bool
  lastChance : Option String
  isPaused : Bool
  pauseContent : Option String
  unPauseAfter : JSNum
  durationAfterPause : JSNum
  pauseEmbedColor : Option Int
  infiniteDurationText : Option String
  endTimeout : Bool
  messageFound : Bool
deriving DecidableEq, Repr

/-- Embeds `Giveaway.ensureEndTimeout()`: returns early if a handle is already
stored, then evaluates the condition
`this.remainingTime > this.manager.options.forceUpdateEvery || 15_000`,
which JavaScript parses as
`(this.remainingTime > forceUpdateEvery) || 15_000`, and returns early
when it is truthy; only past both guards is a timeout armed for
`remainingTime`. -/
def Giveaway.ensureEndTimeout (forceUpdateEvery : JSNum) (now : Int) (g : GState) : GState :=
  if g.endTimeout then g
  else if jsOrNumTruthy (jsGt (g.endAt.subF now) forceUpdateEvery) 15000 then g
  else { g with endTimeout := true }

/-- Arguments of `Giveaway.pause(options)` (absent fields are `none` /
`JSNum.nullv`). -/
structure PauseArg where
  content : Option String
  unPauseAfter : JSNum
  embedColor : Option Int
  infiniteDurationText : Option String
deriving Repr

/-- Embeds `Giveaway.pause(options)`.  Guards in source order; then
`clearTimeout(this.endTimeout)` cancels the pending timer (leaving the
field set); then the pause bookkeeping on `options.pauseOptions`. -/
def Giveaway.pause (now : Int) (opts : PauseArg) (g : GState) : Except String GState :=
  if g.ended then .error ("Giveaway with Message ID " ++ g.messageID ++ " has ended")
  else if !g.messageFound then
    .error ("Unable to find Giveaway with ID " ++ g.messageID)
  else if g.isPaused then
    .error ("Giveaway with Message ID " ++ g.messageID ++ " has already been paused")
  else if g.isDrop then .error "Drop Giveaways cannot be paused"
  else
    let content := match opts.content with | some c => some c | none => g.pauseContent
    let g1 :=
      match opts.unPauseAfter with
      | .fin u =>
        if u < now then
          { g with pauseContent := content,
                   unPauseAfter := .fin (now + u),
                   endAt := g.endAt.addF u }
        else
          { g with pauseContent := content,
                   unPauseAfter := .fin u,
                   endAt := (g.endAt.addF u).addF (-now) }
      | _ =>
        { g with pauseContent := content,
                 unPauseAfter := .nullv,
                 durationAfterPause := g.endAt.subF now,
                 endAt := .inf }
    let g2 := { g1 with
      pauseEmbedColor :=
        match opts.embedColor with
        | some c => if c ≠ 0 then some c else g1.pauseEmbedColor
        | none => g1.pauseEmbedColor,
      infiniteDurationText :=
        match opts.infiniteDurationText with
        | some s => some s
        | none => g1.infiniteDurationText,
      isPaused := true }
    .ok g2

/-- Embeds `Giveaway.unpause()`.  Guards in source order; if a finite
`durationAfterPause` was captured, `endAt` becomes `now` plus it; the
stored `unPauseAfter` is deleted, the pause flag cleared, and
`ensureEndTimeout` runs before the state is persisted. -/
def Giveaway.unpause (forceUpdateEvery : JSNum) (now : Int) (g : GState) : Except String GState :=
  if g.ended then .error ("Giveaway with Message ID " ++ g.messageID ++ " has ended")
  else if !g.messageFound then
    .error ("Unable to find Giveaway with Message ID " ++ g.messageID)
  else if !g.isPaused then
    .error ("Giveaway with Message ID " ++ g.messageID ++ " is not paused")
  else if g.isDrop then .error "Drop Giveaways cannot be unpaused"
  else
    let g1 :=
      match g.durationAfterPause with
      | .fin d => { g with endAt := .fin (now + d) }
      | _ => g
    let g2 := { g1 with unPauseAfter := .nullv, isPaused := false }
    .ok (Giveaway.ensureEndTimeout forceUpdateEvery now g2)

/-!
## Ending a giveaway (`Giveaway.end`)

The environment carries the clock, `client.startTime`, the outcome of
`this.message ??= await this.fetchMessage().catch(...)` (`ok` when the
message is cached or fetched; `failRetry` when the fetch rejected with a
"Try again!" error, in which case the `catch` arm evaluates
`this.ended = false`; `fail` otherwise), and the identifiers returned by
`this.roll()` (the selection engine is embedded separately below).
The method is named `end` in the source (a Lean keyword).
-/

inductive FetchOutcome where
  | ok : FetchOutcome
  | failRetry : FetchOutcome
  | fail : FetchOutcome
deriving DecidableEq, Repr

structure EndEnv where
  now : Int
  clientStartTime : Int
  fetch : FetchOutcome
  rollWinners : List String
deriving Repr

/-- Embeds `Giveaway.end(noWinnerMessage)`: the resulting entity state paired
with the settled promise (winner IDs on resolve, the reason on reject). -/
def Giveaway.endGiveaway (env : EndEnv) (g : GState) : GState × Except String (List String) :=
  if g.ended then
    (g, .error ("Giveaway with Message ID " ++ g.messageID ++ " has already ended"))
  else
    let g1 := { g with ended := true }
    match env.fetch with
    | .failRetry =>
      ({ g1 with ended := false },
        .error ("Unable to fetch Giveaway with ID " ++ g.messageID))
    | .fail => (g1, .error ("Unable to fetch Giveaway with ID " ++ g.messageID))
    | .ok =>
      let g2 :=
        if g1.isDrop || jsLt g1.endAt (.fin env.clientStartTime) then
          { g1 with endAt := .fin env.now }
        else g1
      if env.rollWinners.isEmpty then (g2, .ok [])
      else ({ g2 with winnerIDs := env.rollWinners }, .ok env.rollWinners)

/-!
## Editing a giveaway (`Giveaway.edit`)
-/

/-- Arguments of `Giveaway.edit(options)`.  A `some`/`fin` field is one
that was supplied with the type the source checks for
(`typeof ... === "string"`, `Number.isInteger`, `Number.isFinite`,
`Array.isArray`, ...); `newBonusEntries` carries the array already
filtered to its object elements, as the source does. -/
structure EditOpts where
  newMessages : Option String
  newThumbnail : Option String
  newImage : Option String
  newPrize : Option String
  newExtraData : Option String
  newWinnerCount : Option Int
  addTime : JSNum
  setEndTimestamp : JSNum
  newBonusEntries : Option (List BonusEntry)
  newExemptMembers : Bool
  newLastChance : Option String
deriving Repr

/-- The field updates of `Giveaway.edit` before the time options, in
source order: `newMessages` (merged blob), `newThumbnail`, `newImage`,
`newPrize`, `newExtraData`, `newWinnerCount` (positive integer,
non-drop only). -/
def editFields1 (opts : EditOpts) (g : GState) : GState :=
  let g := match opts.newMessages with | some m => { g with messages := m } | none => g
  let g := match opts.newThumbnail with | some s => { g with thumbnail := some s } | none => g
  let g := match opts.newImage with | some s => { g with image := some s } | none => g
  let g := match opts.newPrize with | some s => { g with prize := s } | none => g
  let g := match opts.newExtraData with | some d => { g with extraData := some d } | none => g
  match opts.newWinnerCount with
  | some n => if 0 < n ∧ g.isDrop = false then { g with winnerCount := n } else g
  | none => g

/-- The `addTime` then `setEndTimestamp` steps of `Giveaway.edit`, each
guarded by `Number.isFinite(...)` and `!this.isDrop`; the `addTime`
branch clears the pending timer and calls `ensureEndTimeout`. -/
def editTime (forceUpdateEvery : JSNum) (now : Int) (opts : EditOpts) (g : GState) : GState :=
  let g :=
    if opts.addTime.isFinite = true ∧ g.isDrop = false then
      Giveaway.ensureEndTimeout forceUpdateEvery now { g with endAt := g.endAt.add opts.addTime }
    else g
  if opts.setEndTimestamp.isFinite = true ∧ g.isDrop = false then
    { g with endAt := opts.setEndTimestamp }
  else g

/-- The field updates of `Giveaway.edit` after the time options:
`newBonusEntries` (array, non-drop only), `newExemptMembers`,
`newLastChance` (object, non-drop only, merged blob). -/
def editFields2 (opts : EditOpts) (g : GState) : GState :=
  let g :=
    match opts.newBonusEntries with
    | some bs => if g.isDrop = false then { g with bonusEntries := bs } else g
    | none => g
  let g := if opts.newExemptMembers then { g with exemptMembersSet := true } else g
  match opts.newLastChance with
  | some lc => if g.isDrop = false then { g with lastChance := some lc } else g
  | none => g

/-- Embeds `Giveaway.edit(options)`: the resulting state, paired with the
settled promise — on resolve, whether `remainingTime <= 0` held after
the edits, so that `this.manager.end(this.messageID)` was invoked. -/
def Giveaway.edit (forceUpdateEvery : JSNum) (now : Int) (opts : EditOpts) (g : GState) :
    GState × Except String Bool :=
  if g.ended then (g, .error ("Giveaway Message ID: " ++ g.messageID ++ " has ended"))
  else if !g.messageFound then
    (g, .error ("Unable to find Giveaway with ID: " ++ g.messageID))
  else
    let g := editFields2 opts (editTime forceUpdateEvery now opts (editFields1 opts g))
    if jsLe (g.endAt.subF now) (.fin 0) then (g, .ok true) else (g, .ok false)

/-!
## Starting a giveaway (`GiveawaysManager.start`)

Validation happens before the record is built; on any rejection the
method returns without creating a `Giveaway`, touching
`this.giveaways`, or writing storage.  The success path models the
announcement message having been created (its ID becomes
`giveaway.messageID`), after which the record is pushed and persisted.
The dead guard `options.isDrop && typeof options.isDrop !== "boolean"`
can never hold and adds nothing.
-/

/-- JavaScript `String#trim` (used on the prize): drop whitespace from
both ends, computed on the character list. -/
def jsTrim (s : String) : String :=
  ⟨((s.data.dropWhile Char.isWhitespace).reverse.dropWhile Char.isWhitespace).reverse⟩

/-- Decidable equality of settled promises (used to evaluate concrete
runs). -/
instance : DecidableEq (Except String GState) := fun a b =>
  match a, b with
  | .error x, .error y =>
    if h : x = y then .isTrue (h ▸ rfl)
    else .isFalse (fun hc => h (Except.error.inj hc))
  | .ok x, .ok y =>
    if h : x = y then .isTrue (h ▸ rfl)
    else .isFalse (fun hc => h (Except.ok.inj hc))
  | .error _, .ok _ => .isFalse (fun hc => Except.noConfusion hc)
  | .ok _, .error _ => .isFalse (fun hc => Except.noConfusion hc)

/-- Arguments of `GiveawaysManager.start(channel, options)` that the
validation and the record construction read.  `prize = none` /
`winnerCount = none` stand for values that are not a string / not an
integer. -/
structure StartOpts where
  prize : Option String
  winnerCount : Option Int
  duration : JSNum
  isDrop : Bool
  channelID : String
  guildID : String
  bonusEntries : Option (List BonusEntry)
deriving Repr

/-- Embeds `GiveawaysManager.start`: the updated `this.giveaways` array paired
with the settled promise.  `newMessageID` is the ID of the announcement
message the success path creates. -/
def GiveawaysManager.start (ready channelValid : Bool) (now : Int) (newMessageID : String)
    (opts : StartOpts) (giveaways : List GState) : List GState × Except String GState :=
  if !ready then (giveaways, .error "The manager is not ready")
  else if !channelValid then (giveaways, .error "Channel is not a valid text channel")
  else
    match opts.prize with
    | none =>
      (giveaways, .error "`options.prize` is not a string or longer than 256 characters")
    | some rawPrize =>
      let trimmedPrize := jsTrim rawPrize
      if trimmedPrize.length > 256 then
        (giveaways, .error "`options.prize` is not a string or longer than 256 characters")
      else
        match opts.winnerCount with
        | none => (giveaways, .error "`options.winnerCount` is not a positive integer")
        | some wc =>
          if wc < 1 then
            (giveaways, .error "`options.winnerCount` is not a positive integer")
          else if opts.isDrop = false ∧
              (opts.duration.isFinite = false ∨ jsLt opts.duration (.fin 1) = true) then
            (giveaways, .error "`options.duration` is not a positive number")
          else
            let g : GState :=
              { messageID := newMessageID
                channelID := opts.channelID
                guildID := opts.guildID
                startAt := now
                endAt := if opts.isDrop then .inf else (JSNum.fin now).add opts.duration
                ended := false
                winnerIDs := []
                winnerCount := wc
                prize := trimmedPrize
                messages := ""
                thumbnail := none
                image := none
                extraData := none
                isDrop := opts.isDrop
                bonusEntries :=
                  match opts.bonusEntries with
                  | some bs => if opts.isDrop then [] else bs
                  | none => []
                exemptMembersSet := false
                lastChance := none
                isPaused := false
                pauseContent := none
                unPauseAfter := .nullv
                durationAfterPause := .nullv
                pauseEmbedColor := none
                infiniteDurationText := none
                endTimeout := false
                messageFound := true }
            (giveaways ++ [g], .ok g)

/-!
## The sweep's garbage-collection branch (`GiveawaysManager._checkGiveaway`)

For a giveaway with `ended` set, the sweep checks
`Number.isFinite(this.options.endedGiveawaysLifetime) &&
giveaway.endAt + this.options.endedGiveawaysLifetime <= Date.now()`, and
if so reassigns
`this.giveaways = this.giveaways.filter((g) => g.messageID === giveaway.messageID)`
and calls `this.deleteGiveaway(...)` (which rewrites storage from the
current `this.giveaways`); then returns from this giveaway's iteration.
-/

/-- The `giveaway.ended` branch of the sweep, for one swept giveaway
`g`: the reassigned `this.giveaways`, paired with whether
`deleteGiveaway` was invoked. -/
def GiveawaysManager.checkEndedGiveaway (endedGiveawaysLifetime : JSNum) (now : Int)
    (giveaways : List GState) (g : GState) : List GState × Bool :=
  if g.ended then
    if endedGiveawaysLifetime.isFinite = true ∧
        jsLe (g.endAt.add endedGiveawaysLifetime) (.fin now) = true then
      (giveaways.filter (fun x => x.messageID == g.messageID), true)
    else (giveaways, false)
  else (giveaways, false)

/-!
## Winner selection (`Giveaway.roll`)

The engine is embedded from the point where the full reactor collection
is in hand (the paging `while` loop only accumulates that collection).
`eligible` is the per-identifier outcome of `checkWinnerEntry` (constant
per user within one roll: it reads `winnerIDs`, the member cache, the
exempt predicate and permissions, none of which change during the roll)
and `bonus` the per-identifier value of `checkBonusEntries` (the
non-throwing run; a throwing rule aborts the whole roll, settled under
the error-handling claim).  `rand` supplies the successive
`Math.floor(Math.random() * userArray.length)` draws; taking its value
modulo the current pool length ranges over exactly the indices the
source can draw.

A subtlety of the source: `userArray = users` aliases the two arrays, so
the bonus duplication (`userArray.push(user)`) also grows `users`, and
`Math.min(winnerCount, users.length)` is computed on the *duplicated*
pool; the conditional `userArray?.length > users.length ? userArray :
users` therefore always picks that same pool.
-/

/-- One reactor as the roll sees it. -/
structure RUser where
  id : String
  bot : Bool
deriving DecidableEq, Repr

/-- The two `.filter` calls on the reactor collection:
`(!u.bot || u.bot === this.botsCanWin)` then `u.id !== this.client.user.id`. -/
def rollFilter (selfId : String) (botsCanWin : Bool) (collection : List RUser) : List RUser :=
  (collection.filter (fun u => !u.bot || (u.bot == botsCanWin))).filter
    (fun u => u.id != selfId)

/-- The copies of `user` pushed by the bonus loop: none when
`checkWinnerEntry` fails or `checkBonusEntries` returns `0`, else
`highestBonusEntries` copies. -/
def bonusCopies (eligible : String → Bool) (bonus : String → Nat) (u : RUser) : List RUser :=
  if eligible u.id then
    if bonus u.id ≠ 0 then List.replicate (bonus u.id) u else []
  else []

/-- The selection pool (`userArray` = `users` after the duplication
loop; just `users` when there are no bonus rules). -/
def rollPool (hasBonusRules : Bool) (eligible : String → Bool) (bonus : String → Nat)
    (users : List RUser) : List RUser :=
  if hasBonusRules then users ++ users.flatMap (bonusCopies eligible bonus) else users

/-- The `Array.from({length: n}, () => userArray.splice(...)[0])` draw
loop: `n` single-occurrence removals at the drawn indices, returning the
drawn users in order and the remaining pool.  The `[]` case is
unreachable in `roll` (the draw count never exceeds the pool size). -/
def drawLoop (rand : Nat → Nat) : Nat → Nat → List RUser → List RUser × List RUser
  | 0, _, pool => ([], pool)
  | k + 1, step, pool =>
    match pool with
    | [] => ([], [])
    | _ :: _ =>
      let i := rand step % pool.length
      let u := pool.getD i ⟨"", false⟩
      let rest := pool.eraseIdx i
      let out := drawLoop rand k (step + 1) rest
      (u :: out.1, out.2)

/-- The `for (const u of rolledWinners)` loop: a raw candidate is kept
when not already among the winners (by ID) and passing
`checkWinnerEntry`; otherwise the remaining pool is scanned
(first-match) for a substitute satisfying the same test. -/
def pickLoop (eligible : String → Bool) (remaining : List RUser) :
    List RUser → List RUser → List RUser
  | [], winners => winners
  | u :: rest, winners =>
    if !(winners.any (fun w => w.id == u.id)) && eligible u.id then
      pickLoop eligible remaining rest (winners ++ [u])
    else
      match remaining.find? (fun v => !(winners.any (fun w => w.id == v.id)) && eligible v.id) with
      | some v => pickLoop eligible remaining rest (winners ++ [v])
      | none => pickLoop eligible remaining rest winners

/-- Embeds `Giveaway.roll(winnerCount)`.  Returns the selected users; the final
`Promise.all` maps each one to its guild `Member` with the same ID. -/
def Giveaway.roll (selfId : String) (botsCanWin : Bool) (hasBonusRules : Bool)
    (eligible : String → Bool) (bonus : String → Nat) (rand : Nat → Nat)
    (winnerCount : Nat) (messageFound : Bool) (reactionUsers : List RUser) : List RUser :=
  if !messageFound then []
  else if reactionUsers.isEmpty then []
  else
    let users := rollFilter selfId botsCanWin reactionUsers
    if users.isEmpty then []
    else
      let pool := rollPool hasBonusRules eligible bonus users
      let n := min winnerCount pool.length
      let out := drawLoop rand n 0 pool
      pickLoop eligible out.2 out.1 []

/-- The number of distinct eligible entrants of a filtered reactor list
(the spec's bound for the winners count). -/
def distinctEligibleEntrants (eligible : String → Bool) (users : List RUser) : Nat :=
  ((users.filter (fun u => eligible u.id)).map RUser.id).dedup.length

/-!
## Concrete instances used by witnesses and counterexamples
-/

/-- A plain active (non-ended, non-drop, non-paused) giveaway: started at
`t = 0`, `endAt = 5000`, announcement message present. -/
def gActiveEx : GState :=
  { messageID := "111111111111111111"
    channelID := "222222222222222222"
    guildID := "333333333333333333"
    startAt := 0
    endAt := .fin 5000
    ended := false
    winnerIDs := []
    winnerCount := 1
    prize := "X"
    messages := ""
    thumbnail := none
    image := none
    extraData := none
    isDrop := false
    bonusEntries := []
    exemptMembersSet := false
    lastChance := none
    isPaused := false
    pauseContent := none
    unPauseAfter := .nullv
    durationAfterPause := .nullv
    pauseEmbedColor := none
    infiniteDurationText := none
    endTimeout := false
    messageFound := true }

/-- The same giveaway after it has ended with one recorded winner. -/
def gEndedEx : GState :=
  { gActiveEx with ended := true, winnerIDs := ["444444444444444444"] }

/-- A second, distinct active giveaway (for the sweep counterinstance). -/
def gOtherEx : GState :=
  { gActiveEx with messageID := "555555555555555555", endAt := .fin 99999 }

/-- A `Giveaway.pause` call with no options supplied. -/
def pauseArgNone : PauseArg :=
  { content := none, unPauseAfter := .nullv,
    embedColor := none, infiniteDurationText := none }

/-- An end environment where the message fetch succeeds and the roll
produces one winner. -/
def endEnvEx : EndEnv :=
  { now := 6000, clientStartTime := 100, fetch := .ok,
    rollWinners := ["444444444444444444"] }

/-- A non-cumulative rule evaluating to `5`. -/
def bonusRuleNonCum5 : BonusEntry :=
  { isFunction := true, src := "fnFive", outcome := .value (some 5), cumulative := false }

/-- A cumulative rule evaluating to `3`. -/
def bonusRuleCum3 : BonusEntry :=
  { isFunction := true, src := "fnThree", outcome := .value (some 3), cumulative := true }

/-- One non-cumulative and one cumulative rule together: the source
yields `max(0, 5, 3) = 5`, the spec's formula says `5 + 3 = 8`. -/
def bonusRulesCx : List BonusEntry := [bonusRuleNonCum5, bonusRuleCum3]

/-- A rule whose `bonus` function throws. -/
def bonusRuleThrow : BonusEntry :=
  { isFunction := true, src := "fnBoom", outcome := .thrown "boom", cumulative := false }

/-- Arguments to `start` with an empty prize and everything else valid. -/
def startOptsEmptyPrize : StartOpts :=
  { prize := some "", winnerCount := some 1, duration := .fin 5000, isDrop := false,
    channelID := "222222222222222222", guildID := "333333333333333333",
    bonusEntries := none }

/-- Arguments to `start` with a non-positive winner count. -/
def startOptsBadCount : StartOpts :=
  { startOptsEmptyPrize with prize := some "X", winnerCount := some 0 }

/-- An edit supplying nothing but a time extension of 1000 ms. -/
def editOptsAddTime : EditOpts :=
  { newMessages := none, newThumbnail := none, newImage := none, newPrize := none,
    newExtraData := none, newWinnerCount := none, addTime := .fin 1000,
    setEndTimestamp := .nullv, newBonusEntries := none, newExemptMembers := false,
    newLastChance := none }

/-- The start-validation predicate, read off the guards of
`GiveawaysManager.start` (for a ready manager and a valid channel):
prize not a string or trimmed longer than 256, winner count not a
positive integer, or a non-drop giveaway without a finite positive
duration. -/
def startRejects (opts : StartOpts) : Bool :=
  (match opts.prize with
   | none => true
   | some p => decide ((jsTrim p).length > 256)) ||
  (match opts.winnerCount with
   | none => true
   | some n => decide (n < 1)) ||
  decide (opts.isDrop = false ∧
    (opts.duration.isFinite = false ∨ jsLt opts.duration (JSNum.fin 1) = true))

/-- The record `start` builds from `startOptsEmptyPrize` at `now = 0`
with announcement message `777777777777777777`. -/
def gEmptyPrizeRes : GState :=
  { messageID := "777777777777777777"
    channelID := "222222222222222222"
    guildID := "333333333333333333"
    startAt := 0
    endAt := .fin 5000
    ended := false
    winnerIDs := []
    winnerCount := 1
    prize := ""
    messages := ""
    thumbnail := none
    image := none
    extraData := none
    isDrop := false
    bonusEntries := []
    exemptMembersSet := false
    lastChance := none
    isPaused := false
    pauseContent := none
    unPauseAfter := .nullv
    durationAfterPause := .nullv
    pauseEmbedColor := none
    infiniteDurationText := none
    endTimeout := false
    messageFound := true }

/-!
## Helper lemmas
-/

theorem le_foldl_max (l : List Int) (b : Int) : b ≤ l.foldl max b := by
  induction l generalizing b with
  | nil => simp
  | cons x xs ih => exact le_trans (le_max_left b x) (ih (max b x))

theorem zero_le_jsListMax (xs : List Int) : 0 ≤ jsListMax (0 :: xs) :=
  le_foldl_max xs 0

theorem jsListMax_cons_append (x y : Int) (xs : List Int) :
    jsListMax (x :: (xs ++ [y])) = max (jsListMax (x :: xs)) y := by
  simp [jsListMax, List.foldl_append]

theorem bonusLoop_append (mid : String) (l1 l2 : List BonusEntry)
    (entries cums : List Int) :
    bonusLoop mid (l1 ++ l2) entries cums =
      match bonusLoop mid l1 entries cums with
      | .ok (a, b) => bonusLoop mid l2 a b
      | .error e => .error e := by
  induction l1 generalizing entries cums with
  | nil => simp [bonusLoop]
  | cons r rest ih =>
    rw [List.cons_append, bonusLoop, bonusLoop]
    cases hf : r.isFunction with
    | false => simp only [Bool.false_eq_true, if_false]; exact ih entries cums
    | true =>
      simp only [if_true]
      cases he : r.outcome with
      | thrown s => rfl
      | value o =>
        cases o with
        | none => exact ih entries cums
        | some n =>
          by_cases hn : 0 < n
          · simp only [hn, if_true]
            cases hc : r.cumulative with
            | true => simp only [if_true]; exact ih entries (cums ++ [n])
            | false => simp only [Bool.false_eq_true, if_false]; exact ih (entries ++ [n]) cums
          · simp only [hn, if_false]; exact ih entries cums

theorem bonusLoop_no_throw (mid : String) (rules : List BonusEntry)
    (entries cums : List Int)
    (h : ∀ r ∈ rules, r.isFunction = true → ∀ s, r.outcome ≠ BonusEval.thrown s) :
    bonusLoop mid rules entries cums =
      Except.ok (entries ++ posNonCum rules, cums ++ posCum rules) := by
  induction rules generalizing entries cums with
  | nil => simp [bonusLoop, posNonCum, posCum]
  | cons r rest ih =>
    have hrest : ∀ q ∈ rest, q.isFunction = true → ∀ s, q.outcome ≠ BonusEval.thrown s :=
      fun q hq => h q (List.mem_cons_of_mem r hq)
    rw [bonusLoop]
    cases hf : r.isFunction with
    | false =>
      simp only [Bool.false_eq_true, if_false]
      rw [ih _ _ hrest]
      simp [posNonCum, posCum, List.filterMap_cons, hf]
    | true =>
      simp only [if_true]
      cases he : r.outcome with
      | thrown s => exact absurd he (h r (List.mem_cons_self r rest) hf s)
      | value o =>
        cases o with
        | none =>
          rw [ih _ _ hrest]
          simp [posNonCum, posCum, List.filterMap_cons, hf, he]
        | some n =>
          by_cases hn : 0 < n
          · simp only [hn, if_true]
            cases hc : r.cumulative with
            | true =>
              simp only [if_true]
              rw [ih _ _ hrest]
              simp [posNonCum, posCum, List.filterMap_cons, hf, he, hc, hn]
            | false =>
              simp only [Bool.false_eq_true, if_false]
              rw [ih _ _ hrest]
              simp [posNonCum, posCum, List.filterMap_cons, hf, he, hc, hn]
          · simp only [hn, if_false]
            rw [ih _ _ hrest]
            simp [posNonCum, posCum, List.filterMap_cons, hf, he, hn]
            cases hc : r.cumulative <;> simp [hc, hn]

/-!
## C1 — bonus-entry weighting
-/

/-- C1 counterexample: with one non-cumulative rule evaluating to `5` and
one cumulative rule evaluating to `3`, `checkBonusEntries` returns `5`
(the cumulative sum competes in the maximum) while the claimed formula
"max(non-cumulative) + sum(cumulative)" gives `8`. -/
theorem checkBonusEntries_not_claimed_total :
    checkBonusEntries "111111111111111111" true bonusRulesCx = Except.ok 5 ∧
    claimedBonusTotal bonusRulesCx = 8 ∧
    checkBonusEntries "111111111111111111" true bonusRulesCx ≠
      Except.ok (claimedBonusTotal bonusRulesCx) := by
  refine ⟨rfl, rfl, fun h => ?_⟩
  have h' : Except.ok (ε := String) (5 : Int) = Except.ok (8 : Int) := h
  exact absurd (Except.ok.inj h') (by decide)

/-- C1 (amended): for every participant whose member lookup succeeds and
every rule list whose evaluations all return integers, the total extra
weight computed by `checkBonusEntries` is the *maximum* of `0`, the
positive non-cumulative results, and the sum of the positive cumulative
results — the cumulative sum competes with the best non-cumulative
result instead of being added to it; non-positive and (by the clamping
in `amendedBonusTotal`'s ingredients) non-integer contributions are
ignored. -/
theorem checkBonusEntries_total (mid : String) (rules : List BonusEntry)
    (h : ∀ r ∈ rules, ∃ n, r.outcome = BonusEval.value (some n)) :
    checkBonusEntries mid true rules = Except.ok (amendedBonusTotal rules) := by
  have hnt : ∀ r ∈ rules, r.isFunction = true → ∀ s, r.outcome ≠ BonusEval.thrown s := by
    intro r hr _ s hs
    obtain ⟨n, he⟩ := h r hr
    rw [he] at hs
    exact BonusEval.noConfusion hs
  rw [checkBonusEntries]
  simp only [Bool.not_true, if_false]
  rw [bonusLoop_no_throw mid rules [0] [] hnt]
  by_cases hc : posCum rules = []
  · rw [amendedBonusTotal, hc]
    have h0 : sumList [] = 0 := rfl
    rw [h0, max_eq_left (zero_le_jsListMax _)]
    simp [hc]
  · rw [amendedBonusTotal]
    simp only [List.nil_append, hc, ne_eq, not_false_eq_true, if_true,
      List.singleton_append, Bool.false_eq_true, if_false]
    rw [List.cons_append, jsListMax_cons_append]

/-- C1 witness: the amended theorem applied to the two-rule example (no
throwing evaluations), computing the value `5`. -/
theorem checkBonusEntries_total_witness :
    checkBonusEntries "111111111111111111" true bonusRulesCx =
      Except.ok (amendedBonusTotal bonusRulesCx) :=
  checkBonusEntries_total "111111111111111111" bonusRulesCx (by
    intro r hr
    rw [bonusRulesCx, List.mem_cons, List.mem_singleton] at hr
    rcases hr with rfl | rfl
    · exact ⟨5, rfl⟩
    · exact ⟨3, rfl⟩)

/-!
## C5 — policy evaluation errors
-/

/-- C5 counterexample: a participant whose single bonus rule throws does
not contribute zero extra weight with selection continuing —
`checkBonusEntries` itself throws the wrapped error, so the surrounding
roll aborts. -/
theorem bonusThrow_aborts :
    checkBonusEntries "111111111111111111" true [bonusRuleThrow] =
      Except.error (bonusErrorMsg "111111111111111111" "fnBoom" "boom") ∧
    checkBonusEntries "111111111111111111" true [bonusRuleThrow] ≠ Except.ok 0 := by
  constructor
  · rfl
  · intro h
    have h' : Except.error (α := Int)
        (bonusErrorMsg "111111111111111111" "fnBoom" "boom") = Except.ok 0 := h
    exact Except.noConfusion h'

/-- C5 (amended): a throwing per-giveaway exemption predicate is caught
per participant — the member counts as not exempt and selection
continues — while a throwing bonus rule is re-thrown wrapped in an error
message naming the giveaway's `messageID`, aborting the bonus
computation (and with it the roll) instead of contributing zero. -/
theorem policyError_handling (mid err : String) (hasDefault : Bool)
    (dEval : ExemptEval) (pre post : List BonusEntry) (r : BonusEntry)
    (hf : r.isFunction = true) (he : r.outcome = BonusEval.thrown err)
    (hpre : ∀ q ∈ pre, q.isFunction = true → ∀ s, q.outcome ≠ BonusEval.thrown s) :
    Giveaway.exemptMembers true (ExemptEval.thrown err) hasDefault dEval =
      Except.ok false ∧
    checkBonusEntries mid true (pre ++ r :: post) =
      Except.error (bonusErrorMsg mid r.src err) := by
  constructor
  · rfl
  · have hhead : bonusLoop mid (r :: post) ([0] ++ posNonCum pre) ([] ++ posCum pre) =
        Except.error (bonusErrorMsg mid r.src err) := by
      rw [bonusLoop, hf]
      simp [he]
    have hb : bonusLoop mid (pre ++ r :: post) [0] [] =
        Except.error (bonusErrorMsg mid r.src err) := by
      rw [bonusLoop_append, bonusLoop_no_throw mid pre [0] [] hpre]
      exact hhead
    rw [checkBonusEntries, hb]
    simp

/-- C5 witness: the amended theorem at the concrete throwing rule (no
preceding rules, no default predicate). -/
theorem policyError_handling_witness :
    Giveaway.exemptMembers true (ExemptEval.thrown "boom") false
      (ExemptEval.value false) = Except.ok false ∧
    checkBonusEntries "111111111111111111" true ([] ++ bonusRuleThrow :: []) =
      Except.error (bonusErrorMsg "111111111111111111" bonusRuleThrow.src "boom") :=
  policyError_handling "111111111111111111" "boom" false (ExemptEval.value false)
    [] [] bonusRuleThrow rfl rfl (by intro q hq; simp at hq)

/-!
## C3 — `end` is guarded by `ended` at entry
-/

theorem endGiveaway_ok_ended (env : EndEnv) (g g1 : GState) (w : List String)
    (h : Giveaway.endGiveaway env g = (g1, Except.ok w)) : g1.ended = true := by
  unfold Giveaway.endGiveaway at h
  split at h
  · have h2 := congrArg Prod.snd h
    simp at h2
  · split at h
    · have h2 := congrArg Prod.snd h
      simp at h2
    · have h2 := congrArg Prod.snd h
      simp at h2
    · split at h
      · injection h with h1 h2
        subst h1
        split <;> rfl
      · injection h with h1 h2
        subst h1
        split <;> rfl

/-- C3: `end` checks `ended` as its first action: called on a giveaway
whose `ended` flag is set it rejects returning the state untouched (so
`winnerIDs` is unchanged); and after any successful `end` the resulting
state has `ended = true`, so a second call rejects the same way — `end`
cannot double-execute. -/
theorem end_checks_ended_at_entry (env1 env2 : EndEnv) (g : GState) :
    (g.ended = true →
      Giveaway.endGiveaway env1 g =
        (g, Except.error
          ("Giveaway with Message ID " ++ g.messageID ++ " has already ended"))) ∧
    (∀ g1 w, Giveaway.endGiveaway env1 g = (g1, Except.ok w) →
      Giveaway.endGiveaway env2 g1 =
        (g1, Except.error
          ("Giveaway with Message ID " ++ g1.messageID ++ " has already ended"))) := by
  constructor
  · intro h
    rw [Giveaway.endGiveaway, if_pos h]
  · intro g1 w h
    rw [Giveaway.endGiveaway, if_pos (endGiveaway_ok_ended env1 g g1 w h)]

/-- C3 witness: the guard theorem applied to the concrete ended giveaway
(and, via its second part, to the state produced by a successful first
`end` of the active one). -/
theorem end_checks_ended_at_entry_witness :
    Giveaway.endGiveaway endEnvEx gEndedEx =
      (gEndedEx, Except.error
        ("Giveaway with Message ID " ++ gEndedEx.messageID ++ " has already ended")) ∧
    Giveaway.endGiveaway endEnvEx gEndedEx =
      (gEndedEx, Except.error
        ("Giveaway with Message ID " ++ gEndedEx.messageID ++ " has already ended")) :=
  ⟨(end_checks_ended_at_entry endEnvEx endEnvEx gEndedEx).1 rfl,
   (end_checks_ended_at_entry endEnvEx endEnvEx gActiveEx).2 gEndedEx
     endEnvEx.rollWinners rfl⟩

/-!
## C9 — `ensureEndTimeout` and the always-truthy guard

`this.remainingTime > this.manager.options.forceUpdateEvery || 15_000`
parses as `(remainingTime > forceUpdateEvery) || 15_000`; when the
comparison is false the expression is the number `15_000`, which is
truthy, so the early `return` is taken either way and the
`setTimeout` line is unreachable.
-/

theorem ensureEndTimeout_eq (f : JSNum) (n : Int) (g : GState) :
    Giveaway.ensureEndTimeout f n g = g := by
  rw [Giveaway.ensureEndTimeout]
  by_cases h : g.endTimeout = true
  · rw [if_pos h]
  · rw [if_neg h, if_pos]
    simp [jsOrNumTruthy]

/-- C9: contrary to the claim, `ensureEndTimeout` never arms an
end-timer — for every giveaway state, clock and `forceUpdateEvery`
setting it leaves `endTimeout` (and the whole state) unchanged, because
its guard `(remainingTime > forceUpdateEvery) || 15_000` is always
truthy (an operator-precedence slip for
`remainingTime > (forceUpdateEvery || 15_000)`).  In particular, for an
active giveaway with positive remaining time and no armed timer, no
timer is armed. -/
theorem ensureEndTimeout_never_arms (f : JSNum) (n : Int) (g : GState) :
    (Giveaway.ensureEndTimeout f n g).endTimeout = g.endTimeout ∧
    Giveaway.ensureEndTimeout f n g = g := by
  rw [ensureEndTimeout_eq]
  exact ⟨rfl, rfl⟩

/-!
## C4 — pause/unpause time conservation
-/

/-- C4: pausing a non-ended, non-drop, non-paused giveaway with no
finite resume timestamp stores the current `remainingTime` as
`durationAfterPause` and sets `endAt` to `Infinity`; a later unpause
sets `endAt` to `now + durationAfterPause`. -/
theorem pause_unpause_conserves_time (fUE : JSNum) (g : GState) (t t2 e : Int)
    (h1 : g.ended = false) (h2 : g.isPaused = false) (h3 : g.isDrop = false)
    (h4 : g.messageFound = true) (h5 : g.endAt = JSNum.fin e) :
    ∃ gp, Giveaway.pause t pauseArgNone g = Except.ok gp ∧
      gp.durationAfterPause = JSNum.fin (e - t) ∧
      gp.endAt = JSNum.inf ∧
      ∃ gu, Giveaway.unpause fUE t2 gp = Except.ok gu ∧
        gu.endAt = JSNum.fin (t2 + (e - t)) := by
  rw [Giveaway.pause]
  simp only [h1, h2, h3, h4, pauseArgNone, Bool.not_true, Bool.false_eq_true, if_false]
  refine ⟨_, rfl, ?_, rfl, ?_⟩
  · rw [h5]
    simp [JSNum.subF, JSNum.add, JSNum.toOrd, sub_eq_add_neg]
  · rw [Giveaway.unpause]
    simp only [h1, h2, h3, h4, h5, Bool.not_true, Bool.false_eq_true, if_false,
      Bool.not_false, if_true]
    refine ⟨_, rfl, ?_⟩
    rw [ensureEndTimeout_eq]
    simp [JSNum.subF, JSNum.add, JSNum.toOrd, sub_eq_add_neg]

/-- C4 witness: the spec's scenario — start `t = 0`, `endAt = 5000`,
pause at `t = 1000` (stores 4000, `endAt = Infinity`), unpause at
`t = 9000` (`endAt = 13000`). -/
theorem pause_unpause_conserves_time_witness :
    ∃ gp, Giveaway.pause 1000 pauseArgNone gActiveEx = Except.ok gp ∧
      gp.durationAfterPause = JSNum.fin (5000 - 1000) ∧
      gp.endAt = JSNum.inf ∧
      ∃ gu, Giveaway.unpause JSNum.nullv 9000 gp = Except.ok gu ∧
        gu.endAt = JSNum.fin (9000 + (5000 - 1000)) :=
  pause_unpause_conserves_time JSNum.nullv gActiveEx 1000 9000 5000 rfl rfl rfl rfl rfl

/-!
## C10 — pause with a resume timestamp in the past
-/

/-- C10: pausing a non-ended, non-drop, non-paused giveaway with a
finite `unPauseAfter` smaller than the current time is not rejected: the
value is reinterpreted as a relative delay — the stored resume timestamp
becomes `now + unPauseAfter` and `endAt` is extended by `unPauseAfter` —
and the giveaway is paused with a resume condition rather than
indefinitely. -/
theorem pause_past_resume_accepted (g : GState) (t u e : Int)
    (h1 : g.ended = false) (h2 : g.isPaused = false) (h3 : g.isDrop = false)
    (h4 : g.messageFound = true) (h5 : g.endAt = JSNum.fin e) (hu : u < t) :
    ∃ gp, Giveaway.pause t
        { content := none, unPauseAfter := JSNum.fin u, embedColor := none,
          infiniteDurationText := none } g = Except.ok gp ∧
      gp.unPauseAfter = JSNum.fin (t + u) ∧
      gp.endAt = JSNum.fin (e + u) ∧
      gp.isPaused = true := by
  rw [Giveaway.pause]
  simp only [h1, h2, h3, h4, Bool.not_true, Bool.false_eq_true, if_false, hu, if_true]
  refine ⟨_, rfl, rfl, ?_, rfl⟩
  rw [h5]
  simp [JSNum.addF, JSNum.add, JSNum.toOrd]

/-- C10 witness: pause at `t = 1000` with `unPauseAfter = 500 < 1000` on
the `endAt = 5000` giveaway — accepted, resume stored as `1500`,
`endAt = 5500`. -/
theorem pause_past_resume_accepted_witness :
    ∃ gp, Giveaway.pause 1000
        { content := none, unPauseAfter := JSNum.fin 500, embedColor := none,
          infiniteDurationText := none } gActiveEx = Except.ok gp ∧
      gp.unPauseAfter = JSNum.fin (1000 + 500) ∧
      gp.endAt = JSNum.fin (5000 + 500) ∧
      gp.isPaused = true :=
  pause_past_resume_accepted gActiveEx 1000 500 5000 rfl rfl rfl rfl rfl (by decide)

/-!
## C6 — sweep garbage collection
-/

/-- C6: the sweep's deletion branch is inverted.  Sweeping the expired
ended giveaway of a two-element collection keeps *only* that giveaway
and removes the other (active) one — the opposite of the claim — because
the reassignment filters with `g.messageID === giveaway.messageID` where
every other removal site in the source uses `!==`. -/
theorem sweep_gc_inverted_filter :
    GiveawaysManager.checkEndedGiveaway (JSNum.fin 1000) 10000
        [gEndedEx, gOtherEx] gEndedEx = ([gEndedEx], true) ∧
    (GiveawaysManager.checkEndedGiveaway (JSNum.fin 1000) 10000
        [gEndedEx, gOtherEx] gEndedEx).1 ≠ [gOtherEx] := by
  refine ⟨rfl, ?_⟩
  intro h
  have h2 : gEndedEx.messageID = gOtherEx.messageID :=
    congrArg GState.messageID (List.head_eq_of_cons_eq h)
  exact absurd h2 (by decide)

/-!
## C8 — edit
-/

theorem editFields1_endAt (opts : EditOpts) (g : GState) :
    (editFields1 opts g).endAt = g.endAt := by
  rw [editFields1]
  repeat' split
  all_goals rfl

theorem editFields1_isDrop (opts : EditOpts) (g : GState) :
    (editFields1 opts g).isDrop = g.isDrop := by
  rw [editFields1]
  repeat' split
  all_goals rfl

theorem editFields2_endAt (opts : EditOpts) (g : GState) :
    (editFields2 opts g).endAt = g.endAt := by
  rw [editFields2]
  repeat' split
  all_goals rfl

theorem editTime_endAt (f : JSNum) (now : Int) (opts : EditOpts) (g : GState) :
    (editTime f now opts g).endAt =
      (if opts.setEndTimestamp.isFinite = true ∧ g.isDrop = false then opts.setEndTimestamp
       else if opts.addTime.isFinite = true ∧ g.isDrop = false then g.endAt.add opts.addTime
       else g.endAt) := by
  simp only [editTime, ensureEndTimeout_eq]
  by_cases hA : opts.addTime.isFinite = true ∧ g.isDrop = false
  · by_cases hB : opts.setEndTimestamp.isFinite = true ∧ g.isDrop = false
    · simp [hA, hB]
    · have hs : ¬(opts.setEndTimestamp.isFinite = true) := fun hsf => hB ⟨hsf, hA.2⟩
      simp [hA, hB, hs]
  · by_cases hB : opts.setEndTimestamp.isFinite = true ∧ g.isDrop = false
    · have ha : ¬(opts.addTime.isFinite = true) := fun haf => hA ⟨haf, hB.2⟩
      simp [hA, hB, ha]
    · simp [hA, hB]

/-- C8: `edit` on an ended giveaway is rejected with the state returned
untouched; on a resolving edit, `addTime`/`setEndTimestamp` change
`endAt` only for a non-drop giveaway (a drop's `endAt` is never
changed), and `manager.end` is invoked exactly when the remaining time
after the edits is `<= 0`. -/
theorem edit_spec (fUE : JSNum) (now : Int) (opts : EditOpts) (g : GState) :
    (g.ended = true →
      Giveaway.edit fUE now opts g =
        (g, Except.error ("Giveaway Message ID: " ++ g.messageID ++ " has ended"))) ∧
    (∀ g' r, Giveaway.edit fUE now opts g = (g', Except.ok r) →
      g'.endAt =
        (if opts.setEndTimestamp.isFinite = true ∧ g.isDrop = false
         then opts.setEndTimestamp
         else if opts.addTime.isFinite = true ∧ g.isDrop = false
         then g.endAt.add opts.addTime
         else g.endAt) ∧
      (g.isDrop = true → g'.endAt = g.endAt) ∧
      (r = true ↔ jsLe (g'.endAt.subF now) (JSNum.fin 0) = true)) := by
  have hEnd : (editFields2 opts (editTime fUE now opts (editFields1 opts g))).endAt =
      (if opts.setEndTimestamp.isFinite = true ∧ g.isDrop = false
       then opts.setEndTimestamp
       else if opts.addTime.isFinite = true ∧ g.isDrop = false
       then g.endAt.add opts.addTime
       else g.endAt) := by
    rw [editFields2_endAt, editTime_endAt, editFields1_endAt, editFields1_isDrop]
  constructor
  · intro h
    rw [Giveaway.edit, if_pos h]
  · intro g' r h
    rw [Giveaway.edit] at h
    by_cases hv : g.ended = true
    · rw [if_pos hv] at h
      have h2 := congrArg Prod.snd h
      simp at h2
    · rw [if_neg hv] at h
      by_cases hm : (!g.messageFound) = true
      · rw [if_pos hm] at h
        have h2 := congrArg Prod.snd h
        simp at h2
      · rw [if_neg hm] at h
        have h' : (if jsLe ((editFields2 opts (editTime fUE now opts
                (editFields1 opts g))).endAt.subF now) (JSNum.fin 0) = true
            then (editFields2 opts (editTime fUE now opts (editFields1 opts g)),
              Except.ok true)
            else (editFields2 opts (editTime fUE now opts (editFields1 opts g)),
              Except.ok false)) = (g', Except.ok r) := h
        split at h'
        next hcond =>
          injection h' with h1 h2
          subst h1
          have hr : r = true := (Except.ok.inj h2).symm
          subst hr
          refine ⟨hEnd, ?_, ?_⟩
          · intro hd
            rw [hEnd]
            simp [hd]
          · simp [hcond]
        next hcond =>
          injection h' with h1 h2
          subst h1
          have hr : r = false := (Except.ok.inj h2).symm
          subst hr
          refine ⟨hEnd, ?_, ?_⟩
          · intro hd
            rw [hEnd]
            simp [hd]
          · simp [hcond]

/-- C8 witness: editing the ended giveaway is rejected unchanged, and an
`addTime = 1000` edit of the active giveaway (at `now = 100`) moves
`endAt` from `5000` to `6000` without triggering `end`. -/
theorem edit_spec_witness :
    Giveaway.edit JSNum.nullv 100 editOptsAddTime gEndedEx =
      (gEndedEx, Except.error
        ("Giveaway Message ID: " ++ gEndedEx.messageID ++ " has ended")) ∧
    (({ gActiveEx with endAt := JSNum.fin 6000, messages := gActiveEx.messages } : GState).endAt =
        (if editOptsAddTime.setEndTimestamp.isFinite = true ∧ gActiveEx.isDrop = false
         then editOptsAddTime.setEndTimestamp
         else if editOptsAddTime.addTime.isFinite = true ∧ gActiveEx.isDrop = false
         then gActiveEx.endAt.add editOptsAddTime.addTime
         else gActiveEx.endAt) ∧
      (gActiveEx.isDrop = true →
        ({ gActiveEx with endAt := JSNum.fin 6000 } : GState).endAt = gActiveEx.endAt) ∧
      (false = true ↔
        jsLe (({ gActiveEx with endAt := JSNum.fin 6000 } : GState).endAt.subF 100)
          (JSNum.fin 0) = true)) :=
  ⟨(edit_spec JSNum.nullv 100 editOptsAddTime gEndedEx).1 rfl,
   (edit_spec JSNum.nullv 100 editOptsAddTime gActiveEx).2
     { gActiveEx with endAt := JSNum.fin 6000 } false rfl⟩

/-!
## C7 — start validation
-/

/-- C7 counterexample: `start` with an empty prize and otherwise valid
arguments is not rejected — the record is created, appended to the
registry and persisted — because the only prize validation is
`(options.prize = options.prize.trim()).length > 256`. -/
theorem start_empty_prize_not_rejected :
    GiveawaysManager.start true true 0 "777777777777777777" startOptsEmptyPrize [] =
      ([gEmptyPrizeRes], Except.ok gEmptyPrizeRes) ∧
    startRejects startOptsEmptyPrize = false := by
  exact ⟨rfl, rfl⟩

/-- C7 (amended): with a ready manager and a valid channel, `start`
rejects — synchronously, appending and persisting nothing — exactly
when the prize is not a string or its trimmed length exceeds 256 (an
empty prize is accepted), the winner count is not a positive integer,
or a non-drop giveaway lacks a finite duration `>= 1` (in particular
any non-positive duration); otherwise exactly the one new record is
appended to the registry. -/
theorem start_spec (now : Int) (mid : String) (opts : StartOpts) (gs : List GState) :
    (startRejects opts = true →
      (GiveawaysManager.start true true now mid opts gs).1 = gs ∧
      ∃ e, (GiveawaysManager.start true true now mid opts gs).2 = Except.error e) ∧
    (startRejects opts = false →
      ∃ g, GiveawaysManager.start true true now mid opts gs =
        (gs ++ [g], Except.ok g)) := by
  rw [GiveawaysManager.start, startRejects]
  cases hp : opts.prize with
  | none => simp
  | some p =>
    by_cases hpl : (jsTrim p).length > 256
    · simp [hpl]
    · cases hw : opts.winnerCount with
      | none => simp [hpl]
      | some n =>
        by_cases hn : n < 1
        · simp [hpl, hn]
        · by_cases hd : opts.isDrop = false ∧
              (opts.duration.isFinite = false ∨ jsLt opts.duration (JSNum.fin 1) = true)
          · simp [hpl, hn, hd]
          · simp [hpl, hn, hd]

/-- C7 witness: a zero winner count rejects leaving the registry
unchanged, and the empty-prize (otherwise valid) options append exactly
one record. -/
theorem start_spec_witness :
    ((GiveawaysManager.start true true 0 "777777777777777777" startOptsBadCount []).1 = [] ∧
      ∃ e, (GiveawaysManager.start true true 0 "777777777777777777" startOptsBadCount []).2 =
        Except.error e) ∧
    (∃ g, GiveawaysManager.start true true 0 "777777777777777777" startOptsEmptyPrize [] =
      ([] ++ [g], Except.ok g)) :=
  ⟨(start_spec 0 "777777777777777777" startOptsBadCount []).1 rfl,
   (start_spec 0 "777777777777777777" startOptsEmptyPrize []).2 rfl⟩

/-!
## C2 — winner selection
-/

theorem drawLoop_fst_length (rand : Nat → Nat) (k step : Nat) (pool : List RUser) :
    (drawLoop rand k step pool).1.length ≤ k := by
  induction k generalizing step pool with
  | zero => simp [drawLoop]
  | succ n ih =>
    rw [drawLoop.eq_def]
    cases pool with
    | nil => simp
    | cons a rest =>
      simpa using ih (step + 1) ((a :: rest).eraseIdx (rand step % (a :: rest).length))

theorem drawLoop_fst_subset (rand : Nat → Nat) (k step : Nat) (pool : List RUser) :
    ∀ u ∈ (drawLoop rand k step pool).1, u ∈ pool := by
  induction k generalizing step pool with
  | zero => intro u hu; simp [drawLoop] at hu
  | succ n ih =>
    intro u hu
    rw [drawLoop.eq_def] at hu
    cases pool with
    | nil => simp at hu
    | cons a rest =>
      simp only [List.mem_cons] at hu
      rcases hu with hhead | htail
      · subst hhead
        have hlt : rand step % (a :: rest).length < (a :: rest).length :=
          Nat.mod_lt _ (by simp)
        rw [List.getD_eq_getElem (a :: rest) ⟨"", false⟩ hlt]
        exact List.getElem_mem hlt
      · exact List.eraseIdx_subset _ _
          (ih (step + 1) ((a :: rest).eraseIdx (rand step % (a :: rest).length)) u htail)

theorem drawLoop_snd_subset (rand : Nat → Nat) (k step : Nat) (pool : List RUser) :
    ∀ u ∈ (drawLoop rand k step pool).2, u ∈ pool := by
  induction k generalizing step pool with
  | zero => intro u hu; simpa [drawLoop] using hu
  | succ n ih =>
    intro u hu
    rw [drawLoop.eq_def] at hu
    cases pool with
    | nil => simp at hu
    | cons a rest =>
      have := ih (step + 1) ((a :: rest).eraseIdx (rand step % (a :: rest).length)) u (by simpa using hu)
      exact List.eraseIdx_subset _ _ this

theorem winners_fresh (winners : List RUser) (x : RUser)
    (hx : (winners.any fun w => w.id == x.id) = false) :
    ∀ w ∈ winners, w.id ≠ x.id := by
  intro w hw heq
  have hany : winners.any (fun w => w.id == x.id) = true :=
    List.any_eq_true.mpr ⟨w, hw, by simp [heq]⟩
  rw [hx] at hany
  exact Bool.false_ne_true hany

theorem nodup_append_single (winners : List RUser) (x : RUser)
    (hnd : (winners.map RUser.id).Nodup)
    (hx : (winners.any fun w => w.id == x.id) = false) :
    ((winners ++ [x]).map RUser.id).Nodup := by
  rw [List.map_append]
  refine List.Nodup.append hnd (by simp) ?_
  intro a ha hb
  rw [List.mem_map] at ha
  obtain ⟨w, hw, rfl⟩ := ha
  simp only [List.map_cons, List.map_nil, List.mem_singleton] at hb
  exact winners_fresh winners x hx w hw hb

theorem pickLoop_spec (eligible : String → Bool) (remaining S : List RUser)
    (hrem : ∀ v ∈ remaining, v ∈ S) (rolled : List RUser) :
    ∀ (winners : List RUser), (∀ u ∈ rolled, u ∈ S) →
      (winners.map RUser.id).Nodup →
      (∀ w ∈ winners, eligible w.id = true) →
      (∀ w ∈ winners, w ∈ S) →
      ((pickLoop eligible remaining rolled winners).map RUser.id).Nodup ∧
      (∀ w ∈ pickLoop eligible remaining rolled winners, eligible w.id = true) ∧
      (∀ w ∈ pickLoop eligible remaining rolled winners, w ∈ S) ∧
      (pickLoop eligible remaining rolled winners).length ≤
        winners.length + rolled.length := by
  induction rolled with
  | nil =>
    intro winners _ hnd hel hmem
    rw [pickLoop]
    exact ⟨hnd, hel, hmem, by simp⟩
  | cons u rest ih =>
    intro winners hrol hnd hel hmem
    rw [pickLoop]
    by_cases hc : ((!(winners.any fun w => w.id == u.id)) && eligible u.id) = true
    · rw [if_pos hc]
      obtain ⟨hna, helu⟩ := Bool.and_eq_true_iff.mp hc
      have hfalse : (winners.any fun w => w.id == u.id) = false := by
        cases hcase : winners.any fun w => w.id == u.id
        · rfl
        · rw [hcase] at hna; exact absurd hna (by simp)
      have h1 := ih (winners ++ [u]) (fun v hv => hrol v (List.mem_cons_of_mem u hv))
        (nodup_append_single winners u hnd hfalse)
        (by
          intro w hw
          rcases List.mem_append.mp hw with h | h
          · exact hel w h
          · rw [List.mem_singleton.mp h]; exact helu)
        (by
          intro w hw
          rcases List.mem_append.mp hw with h | h
          · exact hmem w h
          · rw [List.mem_singleton.mp h]; exact hrol u (List.mem_cons_self u rest))
      refine ⟨h1.1, h1.2.1, h1.2.2.1, ?_⟩
      have hlen := h1.2.2.2
      rw [List.length_append] at hlen
      simp only [List.length_cons, List.length_nil, List.length_singleton] at hlen ⊢
      omega
    · rw [if_neg hc]
      cases hf : remaining.find? fun v => (!(winners.any fun w => w.id == v.id)) && eligible v.id with
      | none =>
        have h1 := ih winners (fun v hv => hrol v (List.mem_cons_of_mem u hv)) hnd hel hmem
        refine ⟨h1.1, h1.2.1, h1.2.2.1, ?_⟩
        have := h1.2.2.2
        simp only [List.length_cons] at this ⊢
        omega
      | some v =>
        have hp := List.find?_some hf
        have hvmem := List.mem_of_find?_eq_some hf
        obtain ⟨hna, helv⟩ := Bool.and_eq_true_iff.mp hp
        have hfalse : (winners.any fun w => w.id == v.id) = false := by
          cases hcase : winners.any fun w => w.id == v.id
          · rfl
          · rw [hcase] at hna; exact absurd hna (by simp)
        have h1 := ih (winners ++ [v]) (fun x hx => hrol x (List.mem_cons_of_mem u hx))
          (nodup_append_single winners v hnd hfalse)
          (by
            intro w hw
            rcases List.mem_append.mp hw with h | h
            · exact hel w h
            · rw [List.mem_singleton.mp h]; exact helv)
          (by
            intro w hw
            rcases List.mem_append.mp hw with h | h
            · exact hmem w h
            · rw [List.mem_singleton.mp h]; exact hrem v hvmem)
        refine ⟨h1.1, h1.2.1, h1.2.2.1, ?_⟩
        have hlen := h1.2.2.2
        rw [List.length_append] at hlen
        simp only [List.length_cons, List.length_nil, List.length_singleton] at hlen ⊢
        omega

theorem nodup_length_le_dedup (l l2 : List String) (hn : l.Nodup)
    (hs : ∀ x ∈ l, x ∈ l2) : l.length ≤ l2.dedup.length := by
  classical
  have h1 : l.toFinset.card = l.length := List.toFinset_card_of_nodup hn
  have h2 : l.toFinset ⊆ l2.toFinset := by
    intro x hx
    rw [List.mem_toFinset] at hx ⊢
    exact hs x hx
  calc l.length = l.toFinset.card := h1.symm
    _ ≤ l2.toFinset.card := Finset.card_le_card h2
    _ = l2.dedup.length := List.card_toFinset l2

theorem rollPool_subset (hasB : Bool) (elig : String → Bool) (bonus : String → Nat)
    (users : List RUser) : ∀ u ∈ rollPool hasB elig bonus users, u ∈ users := by
  intro u hu
  rw [rollPool] at hu
  split at hu
  · rcases List.mem_append.mp hu with h | h
    · exact h
    · rw [List.mem_flatMap] at h
      obtain ⟨v, hv, hvc⟩ := h
      rw [bonusCopies] at hvc
      split at hvc
      · split at hvc
        · exact (List.eq_of_mem_replicate hvc) ▸ hv
        · simp at hvc
      · simp at hvc
  · exact hu

theorem roll_core (eligible : String → Bool) (rand : Nat → Nat) (winnerCount : Nat)
    (users pool : List RUser) (hsub : ∀ u ∈ pool, u ∈ users) :
    ((pickLoop eligible (drawLoop rand (min winnerCount pool.length) 0 pool).2
        (drawLoop rand (min winnerCount pool.length) 0 pool).1 []).map RUser.id).Nodup ∧
    (∀ w ∈ pickLoop eligible (drawLoop rand (min winnerCount pool.length) 0 pool).2
        (drawLoop rand (min winnerCount pool.length) 0 pool).1 [], eligible w.id = true) ∧
    (pickLoop eligible (drawLoop rand (min winnerCount pool.length) 0 pool).2
        (drawLoop rand (min winnerCount pool.length) 0 pool).1 []).length ≤
      min winnerCount (distinctEligibleEntrants eligible users) := by
  have hS2 : ∀ v ∈ (drawLoop rand (min winnerCount pool.length) 0 pool).2, v ∈ pool :=
    drawLoop_snd_subset rand (min winnerCount pool.length) 0 pool
  have hS1 : ∀ v ∈ (drawLoop rand (min winnerCount pool.length) 0 pool).1, v ∈ pool :=
    drawLoop_fst_subset rand (min winnerCount pool.length) 0 pool
  have hinv := pickLoop_spec eligible
    (drawLoop rand (min winnerCount pool.length) 0 pool).2 pool hS2
    (drawLoop rand (min winnerCount pool.length) 0 pool).1 [] hS1
    (by simp) (by simp) (by simp)
  obtain ⟨hnd, hel, hmem, hlen⟩ := hinv
  refine ⟨hnd, hel, le_min ?_ ?_⟩
  · calc (pickLoop eligible (drawLoop rand (min winnerCount pool.length) 0 pool).2
          (drawLoop rand (min winnerCount pool.length) 0 pool).1 []).length
        ≤ [].length + (drawLoop rand (min winnerCount pool.length) 0 pool).1.length := hlen
      _ ≤ min winnerCount pool.length := by
          simpa using drawLoop_fst_length rand (min winnerCount pool.length) 0 pool
      _ ≤ winnerCount := min_le_left _ _
  · rw [← List.length_map (pickLoop eligible
      (drawLoop rand (min winnerCount pool.length) 0 pool).2
      (drawLoop rand (min winnerCount pool.length) 0 pool).1 []) RUser.id]
    apply nodup_length_le_dedup _ _ hnd
    intro x hx
    rw [List.mem_map] at hx
    obtain ⟨w, hw, rfl⟩ := hx
    rw [List.mem_map]
    refine ⟨w, ?_, rfl⟩
    rw [List.mem_filter]
    exact ⟨hsub w (hmem w hw), hel w hw⟩

/-- C2: for every entry pool (any reactor collection, bot flag, bonus
configuration and randomness source) and desired winner count, `roll`
returns a sequence whose identifiers are pairwise distinct, every
member of which passes the eligibility check, of length at most
`min(winnerCount, number of distinct eligible entrants)`. -/
theorem roll_spec (selfId : String) (botsCanWin hasBonusRules : Bool)
    (eligible : String → Bool) (bonus : String → Nat) (rand : Nat → Nat)
    (winnerCount : Nat) (messageFound : Bool) (reactionUsers : List RUser) :
    ((Giveaway.roll selfId botsCanWin hasBonusRules eligible bonus rand winnerCount
        messageFound reactionUsers).map RUser.id).Nodup ∧
    (∀ w ∈ Giveaway.roll selfId botsCanWin hasBonusRules eligible bonus rand winnerCount
        messageFound reactionUsers, eligible w.id = true) ∧
    (Giveaway.roll selfId botsCanWin hasBonusRules eligible bonus rand winnerCount
        messageFound reactionUsers).length ≤
      min winnerCount (distinctEligibleEntrants eligible
        (rollFilter selfId botsCanWin reactionUsers)) := by
  by_cases hm : (!messageFound) = true
  · simp [Giveaway.roll, hm]
  · by_cases hre : reactionUsers.isEmpty = true
    · simp [Giveaway.roll, hm, hre]
    · by_cases hue : (rollFilter selfId botsCanWin reactionUsers).isEmpty = true
      · simp [Giveaway.roll, hm, hre, hue]
      · have hroll : Giveaway.roll selfId botsCanWin hasBonusRules eligible bonus rand
            winnerCount messageFound reactionUsers =
            pickLoop eligible
              (drawLoop rand (min winnerCount (rollPool hasBonusRules eligible bonus
                (rollFilter selfId botsCanWin reactionUsers)).length) 0
                (rollPool hasBonusRules eligible bonus
                  (rollFilter selfId botsCanWin reactionUsers))).2
              (drawLoop rand (min winnerCount (rollPool hasBonusRules eligible bonus
                (rollFilter selfId botsCanWin reactionUsers)).length) 0
                (rollPool hasBonusRules eligible bonus
                  (rollFilter selfId botsCanWin reactionUsers))).1
              [] := by
          rw [Giveaway.roll]
          rw [if_neg hm, if_neg hre, if_neg hue]
        rw [hroll]
        exact roll_core eligible rand winnerCount
          (rollFilter selfId botsCanWin reactionUsers)
          (rollPool hasBonusRules eligible bonus
            (rollFilter selfId botsCanWin reactionUsers))
          (rollPool_subset hasBonusRules eligible bonus
            (rollFilter selfId botsCanWin reactionUsers))
